import Mathlib

/-!
Verification of the combinators library (resilience combinators for
effectful asynchronous computations) against its specification.

The Python sources are shallowly embedded: lazy asynchronous effects are
modelled by the value they deterministically produce when executed
(`Result`, `WriterResult`), repeatedly-executable effects by a stream
indexed by the attempt number, and Python exceptions by an explicit
`PyError` carried in `Except`.  Cooperative concurrency is modelled by
passing completion data explicitly (for example, the list of raw results
that `asyncio.gather` delivers, in input order).
-/

namespace Comb

/-- Success-or-failure sum type (the external kungfu `Result`, consumed by
every combinator; `Ok(value) | Error(error)`). -/
inductive Result (T E : Type) where
  | Ok : T → Result T E
  | Error : E → Result T E
deriving Repr, DecidableEq

/-- Python exceptions that the combinator bodies can raise. -/
inductive PyError where
  | valueError : String → PyError
  | runtimeError : String → PyError
deriving Repr, DecidableEq

/-- Log accumulator for the Writer monad: `class Log[A](list[A])` in
`writer/log.py`.  A `Log` is an ordered list of entries. -/
abbrev Log (A : Type) : Type := List A

/-- The empty log, `Log()`. -/
def Log.empty (A : Type) : Log A := []

/-- Create a log holding exactly the given items, `Log.of(*items)`. -/
def Log.of {A : Type} (items : List A) : Log A := items

/-- Combine two logs (monoidal append): `Log.combine` builds a fresh list
holding the entries of `self` followed by the entries of `other`
(`result = Log(self); result.extend(other)`). -/
def Log.combine {A : Type} (self other : Log A) : Log A := self ++ other

/-- Append a single item: `Log.tell` builds a fresh list holding the
entries of `self` followed by `item`
(`result = Log(self); result.append(item)`). -/
def Log.tell {A : Type} (self : Log A) (item : A) : Log A := self ++ [item]

/-- WriterResult from `writer/result.py`: a `Result` paired with the
accumulated log. -/
structure WriterResult (T E W : Type) where
  result : Result T E
  log : Log W
deriving DecidableEq

/-- Extraction used by every writer sugar function
(`_helpers.extract_writer_result`): project the `Result` out of a
`WriterResult`. -/
def extract_writer_result {T E W : Type} (wr : WriterResult T E W) : Result T E :=
  wr.result

/-- Identity extraction used by the plain-`LazyCoroResult` sugar functions
(`_helpers.identity` / `extract_result`). -/
def extract_result {T E : Type} (r : Result T E) : Result T E := r

/-- Merge a list of logs with the monoidal combine
(`_helpers.merge_logs`: start from the empty log and `combine` each in
turn). -/
def merge_logs {W : Type} (logs : List (Log W)) : Log W :=
  logs.foldl (fun acc l => acc.combine l) (Log.empty W)

/-- Monadic bind of `LazyCoroResultWriter` (`writer/monad.py`, `then`),
modelled on the produced `WriterResult`s: execute `self`; on `Ok(value)`
execute the continuation and pair its result with
`self.log.combine(continuation.log)`; on `Error` short-circuit, keeping
the log accumulated so far. -/
def writerThen {T U E W : Type} (wr : WriterResult T E W)
    (f : T → WriterResult U E W) : WriterResult U E W :=
  match wr.result with
  | Result.Ok value =>
      let next := f value
      ⟨next.result, wr.log.combine next.log⟩
  | Result.Error err => ⟨Result.Error err, wr.log⟩

/-- Successes of a result list in input order (the `successes.append`
loop of `collection/validate.py`). -/
def collectOks {T E : Type} : List (Result T E) → List T
  | [] => []
  | Result.Ok v :: rest => v :: collectOks rest
  | Result.Error _ :: rest => collectOks rest

/-- Failures of a result list in input order (the `failures.append` loop
of `collection/validate.py`). -/
def collectErrors {T E : Type} : List (Result T E) → List E
  | [] => []
  | Result.Ok _ :: rest => collectErrors rest
  | Result.Error e :: rest => e :: collectErrors rest

/-- The `validate` combinator (`collection/validate.py`), modelled on the
list of results that `asyncio.gather` returns in input order: collect
every success and every failure; if any failure exists return
`Error(failures)` else `Ok(successes)`. -/
def validate {T E : Type} (results : List (Result T E)) : Result (List T) (List E) :=
  let failures := collectErrors results
  if failures.isEmpty then Result.Ok (collectOks results)
  else Result.Error failures

/-- Claim C10: `Log` is a lawful monoid under `combine` with the empty
log as identity, and `tell` agrees with combining a singleton
(`tell` is documented as equivalent to `self.combine(Log.of(item))`);
in this pure model `combine` and `tell` build a fresh log and cannot
mutate their operands. -/
theorem C10_log_monoid (A : Type) (x y z : Log A) (a : A) :
    (Log.empty A).combine x = x ∧
    x.combine (Log.empty A) = x ∧
    (x.combine y).combine z = x.combine (y.combine z) ∧
    x.tell a = x.combine (Log.of [a]) := by
  refine ⟨?_, ?_, ?_, rfl⟩
  · simp [Log.combine, Log.empty]
  · simp [Log.combine, Log.empty]
  · simp [Log.combine, List.append_assoc]

/-- Claim C8: `LazyCoroResultWriter.then` is Writer-monad bind: on `Ok v`
it runs the continuation and returns its result with the logs
concatenated in order; on `Error` it short-circuits with exactly the log
accumulated so far, and the continuation is irrelevant (not run). -/
theorem C8_writer_then {T U E W : Type} (m : WriterResult T E W)
    (f : T → WriterResult U E W) :
    (∀ v, m.result = Result.Ok v →
      writerThen m f = ⟨(f v).result, m.log.combine (f v).log⟩) ∧
    (∀ e, m.result = Result.Error e →
      writerThen m f = ⟨Result.Error e, m.log⟩) ∧
    (∀ e, m.result = Result.Error e →
      ∀ g : T → WriterResult U E W, writerThen m f = writerThen m g) := by
  refine ⟨?_, ?_, ?_⟩
  · intro v hv
    simp [writerThen, hv]
  · intro e he
    simp [writerThen, he]
  · intro e he g
    simp [writerThen, he]

/-- Witness for C8 at a concrete logged effect and continuation. -/
theorem C8_writer_then_witness :
    writerThen (⟨Result.Ok 1, [10]⟩ : WriterResult Nat Nat Nat)
        (fun v => ⟨Result.Ok (v + 1), [20]⟩) =
      ⟨Result.Ok 2, [10, 20]⟩ ∧
    writerThen (⟨Result.Error 7, [30]⟩ : WriterResult Nat Nat Nat)
        (fun v => ⟨Result.Ok (v + 1), [20]⟩) =
      ⟨Result.Error 7, [30]⟩ := by
  have h1 := (C8_writer_then (⟨Result.Ok 1, [10]⟩ : WriterResult Nat Nat Nat)
    (fun v => ⟨Result.Ok (v + 1), [20]⟩)).1 1 rfl
  have h2 := ((C8_writer_then (⟨Result.Error 7, [30]⟩ : WriterResult Nat Nat Nat)
    (fun v => ⟨Result.Ok (v + 1), [20]⟩)).2).1 7 rfl
  exact ⟨h1.trans (by decide), h2.trans (by decide)⟩

/-- Claim C9: `validate` runs all effects (its model receives every
result from `asyncio.gather`) and returns `Ok` with all success values
iff zero effects failed; otherwise it returns `Error` carrying every
failure's error in input order. -/
theorem C9_validate {T E : Type} (results : List (Result T E)) :
    (collectErrors results = [] →
      validate results = Result.Ok (collectOks results)) ∧
    (collectErrors results ≠ [] →
      validate results = Result.Error (collectErrors results)) ∧
    (validate results = Result.Ok (collectOks results) ∨
      validate results = Result.Error (collectErrors results)) := by
  refine ⟨?_, ?_, ?_⟩
  · intro h
    simp [validate, h]
  · intro h
    simp [validate, List.isEmpty_iff, h]
  · by_cases h : collectErrors results = []
    · exact Or.inl (by simp [validate, h])
    · exact Or.inr (by simp [validate, List.isEmpty_iff, h])

/-- Witness for C9: three effects of which two fail with errors 1 and 2
yield `Error([1, 2])`, both failures in input order. -/
theorem C9_validate_witness :
    validate [Result.Ok 10, Result.Error 1, Result.Error 2] =
      Result.Error ([1, 2] : List Nat) ∧
    collectErrors [Result.Ok (10 : Nat), Result.Error (1 : Nat), Result.Error 2] ≠ [] := by
  have h := ((C9_validate
    [Result.Ok (10 : Nat), Result.Error (1 : Nat), Result.Error 2]).2).1
    (by decide)
  exact ⟨h, by decide⟩

/-! Import surface (claim C1).  Each defining module is represented by the
list of names bound at its top level; each importer by the list of names
its `from ... import ...` statements request.  Python raises `ImportError`
as soon as a requested name is not bound in the source module, before any
effect can run; `fromImportOk` models that resolution. -/

/-- Resolution of a Python `from module import names` statement: it
succeeds iff every requested name is bound in the module. -/
def fromImportOk (defined requested : List String) : Bool :=
  requested.all (fun n => defined.contains n)

/-- Top-level names bound by `control/retry.py`. -/
def retryDefs : List String :=
  ["BackoffStrategy", "_fixed_backoff", "_exponential_backoff",
   "_jitter_backoff", "_exponential_jitter_backoff", "RetryPolicy",
   "_should_retry", "_delay_seconds", "retryM", "retry", "retry_w"]

/-- Top-level names bound by `control/bracket.py`. -/
def bracketDefs : List String :=
  ["bracketM", "bracket", "bracket_on_error", "with_resource",
   "bracket_w", "bracket_on_error_w", "with_resource_w"]

/-- Top-level names bound by `control/fallback.py`. -/
def fallbackDefs : List String :=
  ["fallbackM", "fallback_chainM", "fallback", "fallback_with",
   "fallback_chain", "fallback_w", "fallback_chain_w"]

/-- Top-level names bound by `control/guard.py`. -/
def guardDefs : List String :=
  ["ensureM", "rejectM", "ensure", "reject", "ensure_w", "reject_w"]

/-- Top-level names bound by `control/recover.py`. -/
def recoverDefs : List String :=
  ["recoverM", "recover_withM", "recover", "recover_with",
   "recover_writer", "recover_with_writer"]

/-- Top-level names bound by `control/repeat.py`. -/
def repeatDefs : List String :=
  ["RepeatPolicy", "repeat_untilM", "repeat_until", "repeat_until_writer"]

/-- Top-level names bound by `concurrency/race.py`. -/
def raceDefs : List String :=
  ["RaceOkPolicy", "race_okM", "raceM", "race_ok", "race",
   "race_ok_w", "race_w"]

/-- Top-level names bound by `concurrency/parallel.py`. -/
def parallelDefs : List String :=
  ["parallelM", "parallel", "parallel_w"]

/-- Top-level names bound by `concurrency/rate_limit.py`. -/
def rateLimitDefs : List String :=
  ["RateLimitPolicy", "_TokenBucket", "rate_limitM", "rate_limit",
   "rate_limit_w"]

/-- Top-level names bound by `concurrency/batch.py`. -/
def batchDefs : List String :=
  ["batchM", "batch_allM", "batch", "batch_all", "batch_w", "batch_all_w"]

/-- Top-level names bound by `concurrency/gather.py`. -/
def gatherDefs : List String :=
  ["gather2M", "gather3M", "gather2", "gather3", "gather2_w", "gather3_w"]

/-- Top-level names bound by `concurrency/zip.py`. -/
def zipDefs : List String :=
  ["zip_parM", "zip_par", "zip_with", "zip_par_w", "zip_with_w"]

/-- Top-level names bound by `collection/traverse.py`. -/
def traverseDefs : List String :=
  ["traverseM", "traverse", "traverse_par", "traverse_writer",
   "traverse_par_writer"]

/-- Names `control/__init__.py` requests from each of its modules, in
statement order (`.bracket`, `.fallback`, `.guard`, `.recover`,
`.repeat`, `.retry`). -/
def controlInitRequests : List (List String × List String) :=
  [(bracketDefs, ["bracket", "bracket_on_error", "with_resource",
      "bracket_writer", "bracket_on_error_writer", "with_resource_writer",
      "bracketM"]),
   (fallbackDefs, ["fallback", "fallback_chain", "fallback_chain_writer",
      "fallback_chainM", "fallback_writer", "fallback_with", "fallbackM"]),
   (guardDefs, ["ensure", "reject", "ensure_writer", "reject_writer",
      "ensureM", "rejectM"]),
   (recoverDefs, ["recover", "recover_with", "recover_writer",
      "recover_with_writer", "recoverM", "recover_withM"]),
   (repeatDefs, ["repeat_until", "repeat_until_writer", "repeat_untilM",
      "RepeatPolicy"]),
   (retryDefs, ["retry", "retry_writer", "retryM", "RetryPolicy"])]

/-- Names `concurrency/__init__.py` requests from each of its modules, in
statement order (`.batch`, `.gather`, `.parallel`, `.race`,
`.rate_limit`, `.zip`). -/
def concurrencyInitRequests : List (List String × List String) :=
  [(batchDefs, ["batch", "batch_all", "batch_writer", "batch_all_writer",
      "batchM", "batch_allM"]),
   (gatherDefs, ["gather2", "gather3", "gather2_writer", "gather3_writer",
      "gather2M", "gather3M"]),
   (parallelDefs, ["parallel", "parallel_writer", "parallelM"]),
   (raceDefs, ["race", "race_ok", "race_writer", "race_ok_writer",
      "raceM", "race_okM", "RaceOkPolicy"]),
   (rateLimitDefs, ["rate_limit", "rate_limit_writer", "rate_limitM",
      "RateLimitPolicy"]),
   (zipDefs, ["zip_par", "zip_with", "zip_par_writer", "zip_with_writer",
      "zip_parM"])]

/-- Import of `combinators.control` succeeds iff every one of its
`from .module import ...` statements resolves. -/
def controlImportOk : Bool :=
  controlInitRequests.all (fun p => fromImportOk p.1 p.2)

/-- Import of `combinators.concurrency` succeeds iff every one of its
`from .module import ...` statements resolves. -/
def concurrencyImportOk : Bool :=
  concurrencyInitRequests.all (fun p => fromImportOk p.1 p.2)

/-- Import of the top-level `combinators` package: among other imports it
executes `from .control import ...` and `from .concurrency import ...`,
so it requires both sub-packages to import. -/
def topLevelPackageImportOk : Bool :=
  controlImportOk && concurrencyImportOk

/-- The body of `sequence_w` (`collection/sequence.py`) executes
`from .traverse import traverse_w` when called. -/
def sequenceWBodyImportOk : Bool :=
  fromImportOk traverseDefs ["traverse_w"]

/-- Executing `replicate_w` (`collection/replicate.py`) calls
`sequence_w`, whose body import must resolve. -/
def replicateWRunImportOk : Bool :=
  sequenceWBodyImportOk

/-- Claim C1: the public import surface is inconsistent: the defining
modules export writer-variant sugar under the `_w` suffix while the
package re-exporters and `sequence_w` request `_writer`-suffixed (or
`traverse_w`) names, so importing the top-level `combinators` package,
importing `combinators.control` or `combinators.concurrency`, and
executing `replicate_w` all fail name resolution (an `ImportError`)
before any effect can run. -/
theorem C1_import_surface :
    retryDefs.contains "retry_w" = true ∧
    retryDefs.contains "retry_writer" = false ∧
    bracketDefs.contains "bracket_w" = true ∧
    bracketDefs.contains "bracket_writer" = false ∧
    parallelDefs.contains "parallel_w" = true ∧
    parallelDefs.contains "parallel_writer" = false ∧
    fallbackDefs.contains "fallback_chain_w" = true ∧
    fallbackDefs.contains "fallback_chain_writer" = false ∧
    traverseDefs.contains "traverse_writer" = true ∧
    traverseDefs.contains "traverse_w" = false ∧
    controlImportOk = false ∧
    concurrencyImportOk = false ∧
    topLevelPackageImportOk = false ∧
    sequenceWBodyImportOk = false ∧
    replicateWRunImportOk = false := by
  decide

/-! Retry (claim C2), from `control/retry.py`.  A repeatedly executable
effect is modelled by the stream of raw results its successive
executions produce (`eff : Nat → Raw`, attempt `i` yields `eff i`);
`asyncio.sleep` between attempts affects timing only, never the outcome,
so the backoff delay is carried but does not enter the run function. -/

/-- Backoff strategy: `(attempt_num, error) -> delay_seconds`. -/
def BackoffStrategy (E : Type) : Type := Nat → E → ℚ

/-- Retry configuration (`RetryPolicy`): `__post_init__` rejects
`times < 1`, which the theorems below carry as a `1 ≤ times`
hypothesis. -/
structure RetryPolicy (E : Type) where
  times : Nat
  backoff : BackoffStrategy E
  retry_on : Option (E → Bool)

/-- The `RetryPolicy.fixed` classmethod: same delay every retry and the
given optional `retry_on` predicate. -/
def RetryPolicy.fixed {E : Type} (times : Nat) (delay_seconds : ℚ)
    (retry_on : Option (E → Bool)) : RetryPolicy E :=
  ⟨times, fun _ _ => delay_seconds, retry_on⟩

/-- The `_should_retry` helper: no further attempt when `attempt + 1 >=
policy.times`, or when a `retry_on` predicate is present and rejects the
error. -/
def RetryPolicy.shouldRetry {E : Type} (policy : RetryPolicy E)
    (attempt : Nat) (error : E) : Bool :=
  if policy.times ≤ attempt + 1 then false
  else
    match policy.retry_on with
    | some p => p error
    | none => true

/-- The attempt loop of `retryM.run`: at each attempt extract the result
of the raw execution; `Ok` returns that raw immediately, a failure that
`_should_retry` rejects is returned, otherwise record it as `last` and
retry.  The fuel is the number of remaining loop iterations
(`range(policy.times)`), and the returned `Nat` counts executions of the
underlying effect.  Exhausting the loop with no attempt recorded raises
`RuntimeError` as in the source. -/
def retryLoop {T E Raw : Type} (extract : Raw → Result T E)
    (policy : RetryPolicy E) (eff : Nat → Raw) :
    Nat → Nat → Option Raw → Except PyError (Raw × Nat)
  | attempt, 0, last =>
    match last with
    | some raw => Except.ok (raw, attempt)
    | none => Except.error
        (PyError.runtimeError "retryM(): internal error (no attempts)")
  | attempt, fuel + 1, _ =>
    let raw := eff attempt
    match extract raw with
    | Result.Ok _ => Except.ok (raw, attempt + 1)
    | Result.Error e =>
      if policy.shouldRetry attempt e then
        retryLoop extract policy eff (attempt + 1) fuel (some raw)
      else
        Except.ok (raw, attempt + 1)

/-- The `retryM` combinator's run function: loop over
`range(policy.times)` starting at attempt 0 with no result recorded. -/
def retryRun {T E Raw : Type} (extract : Raw → Result T E)
    (policy : RetryPolicy E) (eff : Nat → Raw) : Except PyError (Raw × Nat) :=
  retryLoop extract policy eff 0 policy.times none

theorem retryLoop_all_fail {T E Raw : Type} (extract : Raw → Result T E)
    (N : Nat) (d : ℚ) (eff : Nat → Raw) (e : Nat → E)
    (hfail : ∀ i, extract (eff i) = Result.Error (e i)) :
    ∀ fuel attempt last, attempt + fuel = N → 1 ≤ fuel →
      retryLoop extract (RetryPolicy.fixed N d none) eff attempt fuel last =
        Except.ok (eff (N - 1), N) := by
  intro fuel
  induction fuel with
  | zero =>
    intro attempt last _ hge
    exact absurd hge (by omega)
  | succ f ih =>
    intro attempt last hsum _
    simp only [retryLoop, hfail attempt]
    by_cases hc : N ≤ attempt + 1
    · have hf : f = 0 := by omega
      subst hf
      simp only [RetryPolicy.shouldRetry, RetryPolicy.fixed, hc, if_true,
        if_false]
      rw [show attempt = N - 1 by omega, show N - 1 + 1 = N by omega]
      simp
    · have hf1 : 1 ≤ f := by omega
      simp only [RetryPolicy.shouldRetry, RetryPolicy.fixed, hc, if_false]
      exact ih (attempt + 1) (some (eff attempt)) (by omega) hf1

/-- Claim C2: with `RetryPolicy.fixed(times=N)` an effect whose every
execution fails is executed exactly `N` times and the `N`-th failure is
returned; the stop conditions apply in order: an `Ok` result returns
immediately after one execution, a failure on the final attempt
(`attempt + 1 == times`) is returned, and a failure rejected by
`retry_on` is returned immediately with no further attempts. -/
theorem C2_retry {T E Raw : Type} (extract : Raw → Result T E) :
    (∀ (N : Nat) (d : ℚ) (eff : Nat → Raw) (e : Nat → E), 1 ≤ N →
      (∀ i, extract (eff i) = Result.Error (e i)) →
      retryRun extract (RetryPolicy.fixed N d none) eff =
        Except.ok (eff (N - 1), N)) ∧
    (∀ (policy : RetryPolicy E) (eff : Nat → Raw) (v : T),
      1 ≤ policy.times → extract (eff 0) = Result.Ok v →
      retryRun extract policy eff = Except.ok (eff 0, 1)) ∧
    (∀ (policy : RetryPolicy E) (eff : Nat → Raw) (er : E),
      policy.times = 1 → extract (eff 0) = Result.Error er →
      retryRun extract policy eff = Except.ok (eff 0, 1)) ∧
    (∀ (policy : RetryPolicy E) (eff : Nat → Raw) (er : E)
        (p : E → Bool),
      1 ≤ policy.times → extract (eff 0) = Result.Error er →
      policy.retry_on = some p → p er = false →
      retryRun extract policy eff = Except.ok (eff 0, 1)) := by
  refine ⟨?_, ?_, ?_, ?_⟩
  · intro N d eff e hN hfail
    exact retryLoop_all_fail extract N d eff e hfail N 0 none (by omega) hN
  · intro policy eff v ht hok
    obtain ⟨t0, hts⟩ : ∃ t0, policy.times = t0 + 1 :=
      ⟨policy.times - 1, by omega⟩
    rw [retryRun, hts]
    simp only [retryLoop, hok]
  · intro policy eff er ht herr
    rw [retryRun, ht]
    simp only [retryLoop, herr, RetryPolicy.shouldRetry, ht]
    simp
  · intro policy eff er p ht herr hro hpf
    obtain ⟨t0, hts⟩ : ∃ t0, policy.times = t0 + 1 :=
      ⟨policy.times - 1, by omega⟩
    rw [retryRun, hts]
    simp only [retryLoop, herr, RetryPolicy.shouldRetry, hro, hpf]
    by_cases hc : policy.times ≤ 0 + 1 <;> simp [hc]

/-- Witness for C2: an always-failing effect under `fixed(times=3)` is
executed exactly 3 times and the third failure comes back; an immediately
succeeding effect is executed once; a non-retryable first failure is
returned after one execution though `times = 5`. -/
theorem C2_retry_witness :
    retryRun (extract_result : Result Nat Nat → Result Nat Nat)
        (RetryPolicy.fixed 3 0 none) (fun i => Result.Error i) =
      Except.ok (Result.Error 2, 3) ∧
    retryRun (extract_result : Result Nat Nat → Result Nat Nat)
        (RetryPolicy.fixed 3 0 none) (fun _ => Result.Ok 7) =
      Except.ok (Result.Ok 7, 1) ∧
    retryRun (extract_result : Result Nat Nat → Result Nat Nat)
        (RetryPolicy.fixed 5 0 (some (fun _ => false)))
        (fun i => Result.Error i) =
      Except.ok (Result.Error 0, 1) := by
  have h := C2_retry (extract_result : Result Nat Nat → Result Nat Nat)
  refine ⟨h.1 3 0 (fun i => Result.Error i) (fun i => i) (by omega)
    (fun i => rfl), ?_, ?_⟩
  · exact h.2.1 (RetryPolicy.fixed 3 0 none) (fun _ => Result.Ok 7) 7
      (by simp [RetryPolicy.fixed]) rfl
  · exact h.2.2.2 (RetryPolicy.fixed 5 0 (some (fun _ => false)))
      (fun i => Result.Error i) 0 (fun _ => false)
      (by simp [RetryPolicy.fixed]) rfl rfl rfl

/-! Race family and fallback chain (claim C3).  The combinator call
itself only builds an `async def run` closure and wraps it (`wrap(run)`),
so it is modelled as `Except.ok` of the run result: the outer `Except` is
what the call can raise, the inner one what executing the returned
effect can raise.  Concurrent completion is modelled by passing the raw
results in completion order. -/

/-- Error-selection strategy of `RaceOkPolicy` (`first` or `last`). -/
inductive ErrorStrategy where
  | first : ErrorStrategy
  | last : ErrorStrategy
deriving DecidableEq, Repr

/-- Configuration for `race_ok` (`concurrency/race.py`). -/
structure RaceOkPolicy where
  cancel_pending : Bool
  error_strategy : ErrorStrategy
deriving DecidableEq, Repr

/-- The loop of `fallback_chainM.run` over the interpretations tried in
order, with the raw result of the last failure carried along; an empty
chain reaches the `last is None` check and raises `ValueError`. -/
def fallbackChainRun {T E Raw : Type} (extract : Raw → Result T E) :
    List Raw → Option Raw → Except PyError Raw
  | [], none => Except.error (PyError.valueError
      "fallback_chainM() requires at least one interpretation")
  | [], some lastRaw => Except.ok lastRaw
  | raw :: rest, _ =>
    match extract raw with
    | Result.Ok _ => Except.ok raw
    | Result.Error _ => fallbackChainRun extract rest (some raw)

/-- Calling `fallback_chainM(*interps, ...)`: the call wraps the run
closure and cannot raise; executing the effect runs the chain. -/
def fallback_chainM_call {T E Raw : Type} (extract : Raw → Result T E)
    (interps : List Raw) : Except PyError (Except PyError Raw) :=
  Except.ok (fallbackChainRun extract interps none)

/-- The scan of `race_okM.run` over raw results in completion order,
tracking the first and last failure raws; when nothing remains, the
failure selected by `error_strategy` is returned. -/
def raceOkLoop {T E Raw : Type} (extract : Raw → Result T E)
    (policy : RaceOkPolicy) :
    List Raw → Option Raw → Option Raw → Except PyError Raw
  | [], firstErr, lastErr =>
    let errRaw := match policy.error_strategy with
      | ErrorStrategy.first => firstErr
      | ErrorStrategy.last => lastErr
    match errRaw with
    | some raw => Except.ok raw
    | none => Except.error (PyError.runtimeError
        "race_okM(): internal error (no results)")
  | raw :: rest, firstErr, _ =>
    match extract raw with
    | Result.Ok _ => Except.ok raw
    | Result.Error _ =>
      raceOkLoop extract policy rest (some (firstErr.getD raw)) (some raw)

/-- Executing the effect returned by `race_okM`: the zero-input check is
the first statement of `run`, before any task is created. -/
def race_okM_run {T E Raw : Type} (extract : Raw → Result T E)
    (policy : RaceOkPolicy) (completed : List Raw) : Except PyError Raw :=
  if completed.isEmpty then
    Except.error (PyError.valueError
      "race_okM() requires at least one interpretation")
  else raceOkLoop extract policy completed none none

/-- Calling `race_okM(*interps, ...)`: the call wraps the run closure and
cannot raise. -/
def race_okM_call {T E Raw : Type} (extract : Raw → Result T E)
    (policy : RaceOkPolicy) (completed : List Raw) :
    Except PyError (Except PyError Raw) :=
  Except.ok (race_okM_run extract policy completed)

/-- Executing the effect returned by `raceM`: the zero-input check is the
first statement of `run`; otherwise the first completed raw result is
returned. -/
def raceM_run {Raw : Type} (completed : List Raw) : Except PyError Raw :=
  match completed with
  | [] => Except.error (PyError.valueError
      "raceM() requires at least one interpretation")
  | raw :: _ => Except.ok raw

/-- Calling `raceM(*interps, ...)`: the call wraps the run closure and
cannot raise. -/
def raceM_call {Raw : Type} (completed : List Raw) :
    Except PyError (Except PyError Raw) :=
  Except.ok (raceM_run completed)

/-- Counterexample to claim C3: calling `race_ok`, `race` and
`fallback_chain` with zero inputs does not raise — each call returns an
effect (outer `Except.ok`), and the `ValueError` only appears when that
effect is executed. -/
theorem C3_call_time_counterexample :
    race_okM_call (extract_result : Result Nat Nat → Result Nat Nat)
        ⟨true, ErrorStrategy.last⟩ [] =
      Except.ok (Except.error (PyError.valueError
        "race_okM() requires at least one interpretation")) ∧
    raceM_call ([] : List (Result Nat Nat)) =
      Except.ok (Except.error (PyError.valueError
        "raceM() requires at least one interpretation")) ∧
    fallback_chainM_call (extract_result : Result Nat Nat → Result Nat Nat)
        [] =
      Except.ok (Except.error (PyError.valueError
        "fallback_chainM() requires at least one interpretation")) := by
  exact ⟨rfl, rfl, rfl⟩

/-- Claim C3 as amended: for `race`, `race_ok` and `fallback_chain`,
zero inputs are rejected with a `ValueError`, but the rejection is
raised when the returned effect is executed (it is the first check
inside the effect's run body, or the empty-chain check after the loop),
not at call time: the call itself succeeds. -/
theorem C3_zero_inputs_deferred {T E Raw : Type} (extract : Raw → Result T E)
    (policy : RaceOkPolicy) :
    race_okM_call extract policy [] =
      Except.ok (Except.error (PyError.valueError
        "race_okM() requires at least one interpretation")) ∧
    raceM_call ([] : List Raw) =
      Except.ok (Except.error (PyError.valueError
        "raceM() requires at least one interpretation")) ∧
    fallback_chainM_call extract [] =
      Except.ok (Except.error (PyError.valueError
        "fallback_chainM() requires at least one interpretation")) := by
  exact ⟨rfl, rfl, rfl⟩

/-! Rate limiting (claim C4), from `concurrency/rate_limit.py`.  Seconds
and token counts are modelled as rationals; wall-clock progress enters as
the nonnegative elapsed time handed to each refill. -/

/-- Python `int()` on a nonnegative number truncates toward zero, which
is the floor; on negatives it is the ceiling. -/
def pyInt (q : ℚ) : ℤ := if 0 ≤ q then ⌊q⌋ else ⌈q⌉

/-- Token bucket configuration (`RateLimitPolicy`). -/
structure RateLimitPolicy where
  max_per_second : ℚ
  burst : Option ℤ
deriving DecidableEq

/-- Validation performed by `RateLimitPolicy.__post_init__`: positive
rate, and an explicitly given burst must be at least 1. -/
def RateLimitPolicy.valid (p : RateLimitPolicy) : Prop :=
  0 < p.max_per_second ∧
    match p.burst with
    | some b => 1 ≤ b
    | none => True

/-- The capacity `rate_limitM` hands to the bucket:
`policy.burst if policy.burst is not None else int(policy.max_per_second)`. -/
def rate_limitM_burst (p : RateLimitPolicy) : ℤ :=
  p.burst.getD (pyInt p.max_per_second)

/-- Runtime state of `_TokenBucket`; `last_refill` is replaced by the
explicit elapsed time passed to each refill. -/
structure TokenBucket where
  max_per_second : ℚ
  burst : ℤ
  tokens : ℚ

/-- A fresh bucket starts full: `tokens = float(burst)`. -/
def TokenBucket.init (rate : ℚ) (burst : ℤ) : TokenBucket :=
  ⟨rate, burst, (burst : ℚ)⟩

/-- The `_refill` method: add `elapsed * max_per_second` tokens, clamped
to the capacity. -/
def TokenBucket.refill (b : TokenBucket) (elapsed : ℚ) : TokenBucket :=
  ⟨b.max_per_second, b.burst,
    min (b.burst : ℚ) (b.tokens + elapsed * b.max_per_second)⟩

/-- One iteration of the `acquire` polling loop: refill, then consume a
token when at least one is available; the Boolean reports whether the
acquisition succeeded (otherwise the Python loop sleeps and retries). -/
def TokenBucket.acquireStep (b : TokenBucket) (elapsed : ℚ) :
    TokenBucket × Bool :=
  let r := b.refill elapsed
  if 1 ≤ r.tokens then
    (⟨r.max_per_second, r.burst, r.tokens - 1⟩, true)
  else (r, false)

/-- Run a sequence of acquire iterations, each with its elapsed time. -/
def TokenBucket.runSteps (b : TokenBucket) : List ℚ → TokenBucket
  | [] => b
  | e :: rest => TokenBucket.runSteps (b.acquireStep e).1 rest

/-- Whether any iteration of the given sequence ever acquires a token. -/
def TokenBucket.anyAcquired (b : TokenBucket) : List ℚ → Bool
  | [] => false
  | e :: rest =>
    (b.acquireStep e).2 || TokenBucket.anyAcquired (b.acquireStep e).1 rest

theorem runSteps_tokens_bounds :
    ∀ (trace : List ℚ) (b : TokenBucket), 0 ≤ b.max_per_second →
      0 ≤ b.tokens → b.tokens ≤ (b.burst : ℚ) → (∀ e ∈ trace, 0 ≤ e) →
      0 ≤ (b.runSteps trace).tokens ∧
        (b.runSteps trace).tokens ≤ ((b.runSteps trace).burst : ℚ) ∧
        (b.runSteps trace).burst = b.burst := by
  intro trace
  induction trace with
  | nil =>
    intro b _ h2 h3 _
    exact ⟨h2, h3, rfl⟩
  | cons e rest ih =>
    intro b h1 h2 h3 he
    have he0 : 0 ≤ e := he e (List.mem_cons_self e rest)
    have herest : ∀ x ∈ rest, 0 ≤ x := fun x hx => he x (List.mem_cons_of_mem e hx)
    have hburst0 : (0 : ℚ) ≤ (b.burst : ℚ) := le_trans h2 h3
    have hmin0 : 0 ≤ min (b.burst : ℚ) (b.tokens + e * b.max_per_second) :=
      le_min hburst0 (by positivity)
    have hminb : min (b.burst : ℚ) (b.tokens + e * b.max_per_second) ≤
        (b.burst : ℚ) := min_le_left _ _
    simp only [TokenBucket.runSteps, TokenBucket.acquireStep,
      TokenBucket.refill]
    by_cases hc : (1 : ℚ) ≤ min (b.burst : ℚ) (b.tokens + e * b.max_per_second)
    · simp only [hc, if_true]
      have ht1 : (0 : ℚ) ≤
          min (b.burst : ℚ) (b.tokens + e * b.max_per_second) - 1 := by
        linarith
      have ht2 : min (b.burst : ℚ) (b.tokens + e * b.max_per_second) - 1 ≤
          (b.burst : ℚ) := by
        linarith
      exact ih ⟨b.max_per_second, b.burst,
        min (b.burst : ℚ) (b.tokens + e * b.max_per_second) - 1⟩
        h1 ht1 ht2 herest
    · simp only [hc, if_false]
      exact ih ⟨b.max_per_second, b.burst,
        min (b.burst : ℚ) (b.tokens + e * b.max_per_second)⟩
        h1 hmin0 hminb herest

theorem anyAcquired_burst_zero :
    ∀ (trace : List ℚ) (b : TokenBucket), b.burst = 0 →
      TokenBucket.anyAcquired b trace = false := by
  intro trace
  induction trace with
  | nil =>
    intro b _
    rfl
  | cons e rest ih =>
    intro b hb
    have hmin : min ((b.burst : ℚ)) (b.tokens + e * b.max_per_second) ≤ 0 := by
      rw [hb]
      exact le_trans (min_le_left _ _) (by norm_num)
    have hc : ¬ (1 : ℚ) ≤ min (b.burst : ℚ) (b.tokens + e * b.max_per_second) := by
      intro hcon
      linarith
    simp only [TokenBucket.anyAcquired, TokenBucket.acquireStep,
      TokenBucket.refill, hc, if_false, Bool.false_or]
    exact ih _ hb

/-- Claim C4 findings, evaluated on the model of
`concurrency/rate_limit.py`: the policy `max_per_second = 1/2` with no
burst passes its own validation, yet the capacity `rate_limitM` computes
for it is `int(1/2) = 0`, violating the `burst ≥ 1` data-model invariant,
and the resulting bucket never hands out a token, for any elapsed-time
sequence (the rate-limited effect can never start).  The remaining parts
of the claim hold: the default capacity is `floor(max_per_second)`, which
is at least 1 whenever `max_per_second ≥ 1`, and across every
acquire/refill sequence with nonnegative elapsed times the token count
stays within `[0, burst]`. -/
theorem C4_rate_limit_bucket :
    RateLimitPolicy.valid ⟨1 / 2, none⟩ ∧
    rate_limitM_burst ⟨1 / 2, none⟩ = 0 ∧
    (∀ rate : ℚ, ∀ trace : List ℚ,
      TokenBucket.anyAcquired (TokenBucket.init rate 0) trace = false) ∧
    (∀ p : RateLimitPolicy, p.burst = none → 0 ≤ p.max_per_second →
      rate_limitM_burst p = ⌊p.max_per_second⌋) ∧
    (∀ p : RateLimitPolicy, p.burst = none → 1 ≤ p.max_per_second →
      1 ≤ rate_limitM_burst p) ∧
    (∀ (rate : ℚ) (burst : ℤ) (trace : List ℚ), 0 ≤ rate → 0 ≤ burst →
      (∀ e ∈ trace, 0 ≤ e) →
      0 ≤ ((TokenBucket.init rate burst).runSteps trace).tokens ∧
        ((TokenBucket.init rate burst).runSteps trace).tokens ≤
          (burst : ℚ)) := by
  refine ⟨?_, ?_, ?_, ?_, ?_, ?_⟩
  · constructor
    · norm_num
    · trivial
  · have h0 : (0 : ℚ) ≤ 1 / 2 := by norm_num
    simp only [rate_limitM_burst, Option.getD, pyInt, h0, if_true]
    norm_num [Int.floor_eq_zero_iff, Set.mem_Ico]
  · intro rate trace
    exact anyAcquired_burst_zero trace (TokenBucket.init rate 0) rfl
  · intro p hnone hpos
    simp [rate_limitM_burst, hnone, pyInt, hpos]
  · intro p hnone hone
    have h0 : (0 : ℚ) ≤ p.max_per_second := by linarith
    simp only [rate_limitM_burst, hnone, Option.getD, pyInt, h0, if_true]
    exact Int.le_floor.mpr (by exact_mod_cast hone)
  · intro rate burst trace hr hb he
    have hres := runSteps_tokens_bounds trace (TokenBucket.init rate burst)
      hr (by simp [TokenBucket.init]; exact_mod_cast hb)
      (by simp [TokenBucket.init]) he
    refine ⟨hres.1, ?_⟩
    have hbeq : ((TokenBucket.init rate burst).runSteps trace).burst = burst :=
      hres.2.2
    have := hres.2.1
    rw [hbeq] at this
    exact this

/-- Witness for C4 at concrete inputs: the degenerate bucket of the
failing policy acquires nothing over three spins of one second each; a
rate of 3/2 with no burst gets capacity at least 1; and a bucket with
rate 1 and burst 2 keeps its tokens within `[0, 2]` after one step. -/
theorem C4_rate_limit_bucket_witness :
    TokenBucket.anyAcquired (TokenBucket.init (1 / 2) 0) [1, 1, 1] = false ∧
    1 ≤ rate_limitM_burst ⟨3 / 2, none⟩ ∧
    0 ≤ ((TokenBucket.init 1 2).runSteps [1]).tokens ∧
    ((TokenBucket.init 1 2).runSteps [1]).tokens ≤ (2 : ℚ) := by
  have h := C4_rate_limit_bucket
  refine ⟨h.2.2.1 (1 / 2) [1, 1, 1], ?_, ?_, ?_⟩
  · exact h.2.2.2.2.1 ⟨3 / 2, none⟩ rfl (by norm_num)
  · exact (h.2.2.2.2.2 1 2 [1] (by norm_num) (by norm_num)
      (by intro e hes; simp at hes; rw [hes]; norm_num)).1
  · exact (h.2.2.2.2.2 1 2 [1] (by norm_num) (by norm_num)
      (by intro e hes; simp at hes; rw [hes]; norm_num)).2

/-! Bracket (claim C5), from `control/bracket.py`.  The sugar `bracket`
instantiates `bracketM` with identity extraction, `unwrap` as
`get_resource` and `Error` as `combine_err`; its run body is modelled
directly.  The use-effect may return a `Result` or raise, the release
callback may return or raise, and the `Nat` component counts release
invocations. -/

/-- Outcome of executing `use(resource)`: either a returned `Result` or a
propagating exception. -/
inductive UseOut (R E : Type) where
  | ret : Result R E → UseOut R E
  | exn : PyError → UseOut R E

/-- Outcome of awaiting `release(resource)`: normal return or a raised
exception. -/
inductive ReleaseOut where
  | ok : ReleaseOut
  | exn : PyError → ReleaseOut

/-- The run body of `bracket`/`bracketM`: a failed acquire returns its
error with release never called; on success, `use` runs inside
`try/finally`, the `finally` block invokes `release` exactly once and
swallows whatever it raises (`except Exception: pass` — its outcome is
computed and discarded), then `use`'s returned result or propagating
exception is the primary outcome. -/
def bracketRun {T R E : Type} (acquire : Result T E) (use : T → UseOut R E)
    (release : T → ReleaseOut) : Except PyError (Result R E) × Nat :=
  match acquire with
  | Result.Error e => (Except.ok (Result.Error e), 0)
  | Result.Ok resource =>
    let useOut := use resource
    let _releaseOut := release resource
    match useOut with
    | UseOut.ret r => (Except.ok r, 1)
    | UseOut.exn p => (Except.error p, 1)

/-- Claim C5: under every combination of acquire success/failure and use
success/failure/exception, release runs exactly once iff acquire
succeeded; a failed acquire returns its error with release never called;
and the primary result — use's outcome or its propagating exception — is
unchanged whatever the release callback does (release exceptions are
swallowed). -/
theorem C5_bracket {T R E : Type} (acquire : Result T E)
    (use : T → UseOut R E) (release : T → ReleaseOut) :
    ((bracketRun acquire use release).2 =
      match acquire with
      | Result.Ok _ => 1
      | Result.Error _ => 0) ∧
    (∀ e, acquire = Result.Error e →
      bracketRun acquire use release = (Except.ok (Result.Error e), 0)) ∧
    (∀ v r, acquire = Result.Ok v → use v = UseOut.ret r →
      (bracketRun acquire use release).1 = Except.ok r) ∧
    (∀ v p, acquire = Result.Ok v → use v = UseOut.exn p →
      (bracketRun acquire use release).1 = Except.error p) ∧
    (∀ release2 : T → ReleaseOut,
      (bracketRun acquire use release).1 =
        (bracketRun acquire use release2).1) := by
  refine ⟨?_, ?_, ?_, ?_, ?_⟩
  · cases acquire with
    | Ok v =>
      cases h : use v with
      | ret r => simp [bracketRun, h]
      | exn p => simp [bracketRun, h]
    | Error e => simp [bracketRun]
  · intro e he
    subst he
    simp [bracketRun]
  · intro v r ha hu
    subst ha
    simp [bracketRun, hu]
  · intro v p ha hu
    subst ha
    simp [bracketRun, hu]
  · intro release2
    cases acquire with
    | Ok v =>
      cases h : use v with
      | ret r => simp [bracketRun, h]
      | exn p => simp [bracketRun, h]
    | Error e => simp [bracketRun]

/-- Witness for C5 at concrete inputs: a raising release does not mask a
successful use; a failed acquire comes back untouched with zero release
calls; a use exception propagates past a raising release. -/
theorem C5_bracket_witness :
    (bracketRun (Result.Ok (0 : Nat) : Result Nat Nat)
        (fun _ => (UseOut.ret (Result.Ok (5 : Nat)) : UseOut Nat Nat))
        (fun _ => ReleaseOut.exn (PyError.runtimeError "boom"))).1 =
      Except.ok (Result.Ok 5) ∧
    bracketRun (Result.Error (3 : Nat))
        (fun _ : Nat => UseOut.ret (Result.Ok (5 : Nat)))
        (fun _ => ReleaseOut.ok) =
      (Except.ok (Result.Error 3), 0) ∧
    (bracketRun (Result.Ok (0 : Nat))
        (fun _ : Nat =>
          (UseOut.exn (PyError.runtimeError "use-raised") : UseOut Nat Nat))
        (fun _ => ReleaseOut.exn (PyError.runtimeError "boom"))).1 =
      Except.error (PyError.runtimeError "use-raised") := by
  refine ⟨?_, ?_, ?_⟩
  · exact (C5_bracket (Result.Ok (0 : Nat) : Result Nat Nat)
      (fun _ => (UseOut.ret (Result.Ok (5 : Nat)) : UseOut Nat Nat))
      (fun _ => ReleaseOut.exn (PyError.runtimeError "boom"))).2.2.1
      0 (Result.Ok 5) rfl rfl
  · exact (C5_bracket (Result.Error (3 : Nat))
      (fun _ : Nat => UseOut.ret (Result.Ok (5 : Nat)))
      (fun _ => ReleaseOut.ok)).2.1 3 rfl
  · exact (C5_bracket (Result.Ok (0 : Nat))
      (fun _ : Nat =>
        (UseOut.exn (PyError.runtimeError "use-raised") : UseOut Nat Nat))
      (fun _ => ReleaseOut.exn (PyError.runtimeError "boom"))).2.2.2.1
      0 (PyError.runtimeError "use-raised") rfl rfl

/-! Timeout (claim C6), from `time/timeout.py`.  `asyncio.wait_for`
either delivers the effect's raw result before the deadline or raises
`asyncio.TimeoutError`; that race is modelled by the `Timed` sum. -/

/-- The structural timeout error of `_errors.py`, carrying the deadline
in seconds. -/
structure TimeoutErr where
  seconds : ℚ
deriving DecidableEq, Repr

/-- Outcome of racing an effect against a deadline: completed in time
with its raw result, or deadline expired. -/
inductive Timed (Raw : Type) where
  | completed : Raw → Timed Raw
  | expired : Timed Raw

/-- The run body of the generic `timeoutM`: widen the raw result on
completion, otherwise build the timeout raw. -/
def timeoutM_run {RawIn RawOut : Type} (widen : RawIn → RawOut)
    (on_timeout : Unit → RawOut) : Timed RawIn → RawOut
  | Timed.completed raw => widen raw
  | Timed.expired => on_timeout ()

/-- The `widen` function of the `timeout` sugar: re-wrap the same value
or error, with the error injected into the widened channel. -/
def timeout_widen {T E : Type} (r : Result T E) :
    Result T (Sum E TimeoutErr) :=
  match r with
  | Result.Ok v => Result.Ok v
  | Result.Error e => Result.Error (Sum.inl e)

/-- The `on_timeout` function of the `timeout` sugar:
`Error(TimeoutError(seconds))`. -/
def timeout_on_timeout {T E : Type} (seconds : ℚ) :
    Unit → Result T (Sum E TimeoutErr) :=
  fun _ => Result.Error (Sum.inr ⟨seconds⟩)

/-- The `timeout` combinator's run function. -/
def timeout_run {T E : Type} (seconds : ℚ) (t : Timed (Result T E)) :
    Result T (Sum E TimeoutErr) :=
  timeoutM_run timeout_widen (timeout_on_timeout seconds) t

/-- The `widen` function of `timeout_writer`: same result re-wrapped
with the error injected, and the log carried through unchanged. -/
def timeout_writer_widen {T E W : Type} (wr : WriterResult T E W) :
    WriterResult T (Sum E TimeoutErr) W :=
  match wr.result with
  | Result.Ok v => ⟨Result.Ok v, wr.log⟩
  | Result.Error e => ⟨Result.Error (Sum.inl e), wr.log⟩

/-- The `on_timeout` function of `timeout_writer`:
`WriterResult(Error(TimeoutError(seconds)), Log())` — an empty log. -/
def timeout_writer_on_timeout {T E W : Type} (seconds : ℚ) :
    Unit → WriterResult T (Sum E TimeoutErr) W :=
  fun _ => ⟨Result.Error (Sum.inr ⟨seconds⟩), Log.empty W⟩

/-- The `timeout_writer` combinator's run function. -/
def timeout_writer_run {T E W : Type} (seconds : ℚ)
    (t : Timed (WriterResult T E W)) : WriterResult T (Sum E TimeoutErr) W :=
  timeoutM_run timeout_writer_widen (timeout_writer_on_timeout seconds) t

/-- Claim C6: when the effect completes before the deadline, `timeout`
returns the original outcome unchanged (`Ok v` stays `Ok v`, `Error e`
stays the same error injected into the widened channel, and the
`TimeoutError` variant is never produced by widening); on expiry it
returns `Error(TimeoutError(seconds))`; `timeout_writer` keeps the
completed effect's log unchanged and attaches an empty log to the
timeout failure. -/
theorem C6_timeout {T E W : Type} (seconds : ℚ) :
    (∀ r : Result T E,
      timeout_run seconds (Timed.completed r) = timeout_widen r) ∧
    (∀ v : T, timeout_widen (Result.Ok v : Result T E) = Result.Ok v) ∧
    (∀ e : E,
      timeout_widen (Result.Error e : Result T E) =
        Result.Error (Sum.inl e)) ∧
    (∀ (r : Result T E) (s : TimeoutErr),
      timeout_widen r ≠ Result.Error (Sum.inr s)) ∧
    ((timeout_run seconds Timed.expired : Result T (Sum E TimeoutErr)) =
      Result.Error (Sum.inr ⟨seconds⟩)) ∧
    (∀ wr : WriterResult T E W,
      timeout_writer_run seconds (Timed.completed wr) =
        timeout_writer_widen wr) ∧
    (∀ wr : WriterResult T E W,
      (timeout_writer_widen wr).log = wr.log) ∧
    ((timeout_writer_run seconds Timed.expired :
        WriterResult T (Sum E TimeoutErr) W) =
      ⟨Result.Error (Sum.inr ⟨seconds⟩), Log.empty W⟩) := by
  refine ⟨fun r => rfl, fun v => rfl, fun e => rfl, ?_, rfl, fun wr => rfl,
    ?_, rfl⟩
  · intro r s hcon
    cases r with
    | Ok v => simp [timeout_widen] at hcon
    | Error e => simp [timeout_widen] at hcon
  · intro wr
    cases h : wr.result with
    | Ok v => simp [timeout_writer_widen, h]
    | Error e => simp [timeout_writer_widen, h]

/-- Witness for C6 at concrete inputs: a completed success and failure
come back unchanged, expiry yields `TimeoutError(5)`, and the writer
variant keeps the completed log but attaches an empty log on expiry. -/
theorem C6_timeout_witness :
    (timeout_run 5 (Timed.completed (Result.Ok 1)) :
      Result Nat (Sum Nat TimeoutErr)) = Result.Ok 1 ∧
    (timeout_run 5 Timed.expired : Result Nat (Sum Nat TimeoutErr)) =
      Result.Error (Sum.inr ⟨5⟩) ∧
    (timeout_writer_run 5 (Timed.completed ⟨Result.Ok 1, [9]⟩) :
      WriterResult Nat (Sum Nat TimeoutErr) Nat) = ⟨Result.Ok 1, [9]⟩ ∧
    (timeout_writer_run 5 Timed.expired :
      WriterResult Nat (Sum Nat TimeoutErr) Nat) =
      ⟨Result.Error (Sum.inr ⟨5⟩), []⟩ := by
  have h := @C6_timeout Nat Nat Nat 5
  refine ⟨?_, h.2.2.2.2.1, ?_, h.2.2.2.2.2.2.2⟩
  · exact (h.1 (Result.Ok 1)).trans (h.2.1 1)
  · exact (h.2.2.2.2.2.1 ⟨Result.Ok 1, [9]⟩).trans (by decide)

/-! Writer-variant log flow (claim C7).  The concurrent collection
variants are modelled on the raw `WriterResult`s that `asyncio.gather`
(or the semaphore-bounded gather of `batchM`) delivers in input order;
`fold_w` and `repeat_until_writer` on the sequential stream of results
their rounds produce. -/

/-- First error found scanning gathered raws in order (the fail-fast
loop of `parallelM.run` / `batchM.run`). -/
def parallelScan {T E W : Type} : List (WriterResult T E W) → Option E
  | [] => none
  | wr :: rest =>
    match wr.result with
    | Result.Error e => some e
    | Result.Ok _ => parallelScan rest

/-- Success values of the gathered raws, in input order. -/
def okValuesW {T E W : Type} : List (WriterResult T E W) → List T
  | [] => []
  | wr :: rest =>
    match wr.result with
    | Result.Ok v => v :: okValuesW rest
    | Result.Error _ => okValuesW rest

/-- Failure errors of the gathered raws, in input order. -/
def collectErrorsW {T E W : Type} : List (WriterResult T E W) → List E
  | [] => []
  | wr :: rest =>
    match wr.result with
    | Result.Ok _ => collectErrorsW rest
    | Result.Error e => e :: collectErrorsW rest

/-- Merged logs of a list of writer raws (`merge_logs(wr.log for wr in
raws)`). -/
def mergeWLogs {T E W : Type} (wrs : List (WriterResult T E W)) : Log W :=
  merge_logs (wrs.map (fun wr => wr.log))

/-- The `parallel_w` combinator (`concurrency/parallel.py`) on the
gathered raws: fail fast on the first error, with `combine_err` merging
the logs of all raws and `combine_ok` merging the logs of all success
pairs (which, with no error present, are all raws). -/
def parallel_w {T E W : Type} (wrs : List (WriterResult T E W)) :
    WriterResult (List T) E W :=
  match parallelScan wrs with
  | some e => ⟨Result.Error e, mergeWLogs wrs⟩
  | none => ⟨Result.Ok (okValuesW wrs), mergeWLogs wrs⟩

/-- The `batch_w` combinator (`concurrency/batch.py`) after its bounded
gather has filled the raw slots in input order: the same scan, with
`combine_err` merging the logs of every non-`None` raw (all of them
after the gather). -/
def batch_w {T E W : Type} (wrs : List (WriterResult T E W)) :
    WriterResult (List T) E W :=
  match parallelScan wrs with
  | some e => ⟨Result.Error e, mergeWLogs wrs⟩
  | none => ⟨Result.Ok (okValuesW wrs), mergeWLogs wrs⟩

/-- The `validate_w` combinator (`collection/validate.py`): collect every
success and failure while merging every log. -/
def validate_w {T E W : Type} (wrs : List (WriterResult T E W)) :
    WriterResult (List T) (List E) W :=
  if (collectErrorsW wrs).isEmpty then
    ⟨Result.Ok (okValuesW wrs), mergeWLogs wrs⟩
  else ⟨Result.Error (collectErrorsW wrs), mergeWLogs wrs⟩

/-- The `partition_writer` combinator (`collection/partition.py`): split
into successes and failures, merging every log; it never fails, so the
error channel is uninhabited. -/
def partition_writer {T E W : Type} (wrs : List (WriterResult T E W)) :
    WriterResult (List T × List E) Empty W :=
  ⟨Result.Ok (okValuesW wrs, collectErrorsW wrs), mergeWLogs wrs⟩

/-- The loop of `fold_w` (`collection/fold.py`): thread the accumulator
through the handler, merging each round's log into the running log; the
first error stops the fold keeping the merged log so far. -/
def foldWGo {A T E W : Type} (handler : T → A → WriterResult T E W) :
    T → Log W → List A → WriterResult T E W
  | acc, log, [] => ⟨Result.Ok acc, log⟩
  | acc, log, a :: rest =>
    let wr := handler acc a
    let log2 := log.combine wr.log
    match wr.result with
    | Result.Ok v => foldWGo handler v log2 rest
    | Result.Error e => ⟨Result.Error e, log2⟩

/-- The `fold_w` combinator: start from the initial accumulator and an
empty log. -/
def fold_w {A T E W : Type} (handler : T → A → WriterResult T E W)
    (initial : T) (items : List A) : WriterResult T E W :=
  foldWGo handler initial (Log.empty W) items

/-- The logs of the rounds `fold_w` actually executes, in order: every
round up to and including the first failing one. -/
def foldWLogs {A T E W : Type} (handler : T → A → WriterResult T E W) :
    T → List A → List (Log W)
  | _, [] => []
  | acc, a :: rest =>
    let wr := handler acc a
    match wr.result with
    | Result.Ok v => wr.log :: foldWLogs handler v rest
    | Result.Error _ => [wr.log]

/-- The run body of `fallbackM` (`control/fallback.py`): return the
primary raw when it extracts to `Ok`, otherwise the secondary raw (the
primary raw — log included — is dropped). -/
def fallbackRun {T E Raw : Type} (extract : Raw → Result T E)
    (primary secondary : Raw) : Raw :=
  match extract primary with
  | Result.Ok _ => primary
  | Result.Error _ => secondary

/-- The `fallback_w` sugar: `fallbackM` instantiated with
`extract_writer_result`. -/
def fallback_w {T E W : Type} (primary secondary : WriterResult T E W) :
    WriterResult T E W :=
  fallbackRun extract_writer_result primary secondary

/-- The structural error of `repeat_until` exhaustion (`_errors.py`),
carrying the round count. -/
structure ConditionNotMetErr where
  rounds : Nat
deriving DecidableEq, Repr

/-- The loop of `repeat_until_writer` (`control/repeat.py`): each round
returns only that round's log; exhausting `max_rounds` returns
`ConditionNotMetError` with an empty log. -/
def repeat_until_writerLoop {T E W : Type} (eff : Nat → WriterResult T E W)
    (condition : T → Bool) (max_rounds : Nat) :
    Nat → Nat → WriterResult T (Sum E ConditionNotMetErr) W
  | _, 0 => ⟨Result.Error (Sum.inr ⟨max_rounds⟩), Log.empty W⟩
  | round, fuel + 1 =>
    let wr := eff round
    match wr.result with
    | Result.Ok value =>
      if condition value then ⟨Result.Ok value, wr.log⟩
      else repeat_until_writerLoop eff condition max_rounds (round + 1) fuel
    | Result.Error e => ⟨Result.Error (Sum.inl e), wr.log⟩

/-- The `repeat_until_writer` combinator: loop over
`range(policy.max_rounds)`. -/
def repeat_until_writer {T E W : Type} (eff : Nat → WriterResult T E W)
    (condition : T → Bool) (max_rounds : Nat) :
    WriterResult T (Sum E ConditionNotMetErr) W :=
  repeat_until_writerLoop eff condition max_rounds 0 max_rounds

theorem merge_logs_eq_join {W : Type} (ls : List (Log W)) :
    merge_logs ls = ls.flatten := by
  have hgen : ∀ (ls : List (Log W)) (acc : Log W),
      List.foldl (fun a l => Log.combine a l) acc ls = acc ++ ls.flatten := by
    intro ls
    induction ls with
    | nil => intro acc; simp
    | cons l rest ih =>
      intro acc
      rw [List.foldl_cons, ih (Log.combine acc l)]
      simp [Log.combine, List.append_assoc]
  simpa [merge_logs, Log.empty] using hgen ls []

theorem foldWGo_log {A T E W : Type} (handler : T → A → WriterResult T E W) :
    ∀ (items : List A) (acc : T) (log : Log W),
      (foldWGo handler acc log items).log =
        log ++ (foldWLogs handler acc items).flatten := by
  intro items
  induction items with
  | nil =>
    intro acc log
    simp [foldWGo, foldWLogs]
  | cons a rest ih =>
    intro acc log
    simp only [foldWGo, foldWLogs]
    cases h : (handler acc a).result with
    | Ok v => simp [h, ih, Log.combine]
    | Error e => simp [h, Log.combine]

theorem fallbackChainRun_member {T E Raw : Type} (extract : Raw → Result T E) :
    ∀ (raws : List Raw) (last : Option Raw),
      (∃ err, fallbackChainRun extract raws last = Except.error err) ∨
      (∃ raw, (raw ∈ raws ∨ last = some raw) ∧
        fallbackChainRun extract raws last = Except.ok raw) := by
  intro raws
  induction raws with
  | nil =>
    intro last
    cases last with
    | none => exact Or.inl ⟨_, rfl⟩
    | some raw => exact Or.inr ⟨raw, Or.inr rfl, rfl⟩
  | cons raw rest ih =>
    intro last
    cases h : extract raw with
    | Ok v =>
      exact Or.inr ⟨raw, Or.inl (List.mem_cons_self raw rest),
        by simp [fallbackChainRun, h]⟩
    | Error e =>
      rcases ih (some raw) with ⟨err, herr⟩ | ⟨w, hw, hok⟩
      · exact Or.inl ⟨err, by simp [fallbackChainRun, h, herr]⟩
      · refine Or.inr ⟨w, ?_, by simp [fallbackChainRun, h, hok]⟩
        rcases hw with hmem | hlast
        · exact Or.inl (List.mem_cons_of_mem raw hmem)
        · injection hlast with hh
          subst hh
          exact Or.inl (List.mem_cons_self raw rest)

theorem repeat_until_writerLoop_log {T E W : Type}
    (eff : Nat → WriterResult T E W) (cond : T → Bool) (maxr : Nat) :
    ∀ (fuel round : Nat),
      (∃ k, (repeat_until_writerLoop eff cond maxr round fuel).log =
        (eff k).log) ∨
      (repeat_until_writerLoop eff cond maxr round fuel).log =
        Log.empty W := by
  intro fuel
  induction fuel with
  | zero =>
    intro round
    exact Or.inr rfl
  | succ f ih =>
    intro round
    cases h : (eff round).result with
    | Ok v =>
      by_cases hc : cond v
      · exact Or.inl ⟨round, by simp [repeat_until_writerLoop, h, hc]⟩
      · simp only [repeat_until_writerLoop, h, hc, if_false]
        exact ih (round + 1)
    | Error e =>
      exact Or.inl ⟨round, by simp [repeat_until_writerLoop, h]⟩

/-- Counterexample to claim C7: `fallback_w` does not concatenate the
logs of all contributing branches — with a failing primary carrying log
`[1]` and a succeeding secondary carrying log `[2]`, the result log is
`[2]` alone, not `[1] ++ [2]`. -/
theorem C7_log_merge_counterexample :
    fallback_w (⟨Result.Error 0, [1]⟩ : WriterResult Nat Nat Nat)
        ⟨Result.Ok 5, [2]⟩ = ⟨Result.Ok 5, [2]⟩ ∧
    (fallback_w (⟨Result.Error 0, [1]⟩ : WriterResult Nat Nat Nat)
        ⟨Result.Ok 5, [2]⟩).log ≠ Log.combine [1] [2] := by
  decide

/-- Claim C7 as amended: the concurrent collection variants
(`parallel_w`, `batch_w`, `validate_w`, `partition_writer`) return the
concatenation of all branches' logs, and `fold_w` the concatenation of
every executed round's log; but the sequential short-circuit variants do
not merge — `fallback_w` returns the primary raw on success and the
secondary raw on failure (discarding the failed primary's log),
`fallback_chain_w` returns a single branch's raw (or raises on an empty
chain), and `repeat_until_writer` returns only the terminating round's
log, with an empty log on exhaustion. -/
theorem C7_writer_logs_amended {A T E W : Type} :
    (∀ wrs : List (WriterResult T E W), (parallel_w wrs).log = mergeWLogs wrs) ∧
    (∀ wrs : List (WriterResult T E W), (batch_w wrs).log = mergeWLogs wrs) ∧
    (∀ wrs : List (WriterResult T E W), (validate_w wrs).log = mergeWLogs wrs) ∧
    (∀ wrs : List (WriterResult T E W),
      (partition_writer wrs).log = mergeWLogs wrs) ∧
    (∀ (handler : T → A → WriterResult T E W) (initial : T) (items : List A),
      (fold_w handler initial items).log =
        merge_logs (foldWLogs handler initial items)) ∧
    (∀ (p s : WriterResult T E W) (v : T),
      p.result = Result.Ok v → fallback_w p s = p) ∧
    (∀ (p s : WriterResult T E W) (e : E),
      p.result = Result.Error e → fallback_w p s = s) ∧
    (∀ raws : List (WriterResult T E W),
      (∃ err, fallbackChainRun extract_writer_result raws none =
        Except.error err) ∨
      (∃ wr ∈ raws, fallbackChainRun extract_writer_result raws none =
        Except.ok wr)) ∧
    (∀ (eff : Nat → WriterResult T E W) (cond : T → Bool) (maxr : Nat),
      (∃ k, (repeat_until_writer eff cond maxr).log = (eff k).log) ∨
      (repeat_until_writer eff cond maxr).log = Log.empty W) := by
  refine ⟨?_, ?_, ?_, ?_, ?_, ?_, ?_, ?_, ?_⟩
  · intro wrs
    cases h : parallelScan wrs <;> simp [parallel_w, h]
  · intro wrs
    cases h : parallelScan wrs <;> simp [batch_w, h]
  · intro wrs
    by_cases h : (collectErrorsW wrs).isEmpty <;> simp [validate_w, h]
  · intro wrs
    rfl
  · intro handler initial items
    rw [fold_w, foldWGo_log handler items initial (Log.empty W),
      merge_logs_eq_join]
    simp [Log.empty]
  · intro p s v hp
    simp [fallback_w, fallbackRun, extract_writer_result, hp]
  · intro p s e hp
    simp [fallback_w, fallbackRun, extract_writer_result, hp]
  · intro raws
    rcases fallbackChainRun_member extract_writer_result raws none with
      ⟨err, herr⟩ | ⟨w, hw, hok⟩
    · exact Or.inl ⟨err, herr⟩
    · rcases hw with hmem | hlast
      · exact Or.inr ⟨w, hmem, hok⟩
      · cases hlast
  · intro eff cond maxr
    exact repeat_until_writerLoop_log eff cond maxr maxr 0

/-- Witness for C7 at concrete inputs: `parallel_w` and `validate_w`
merge both branches' logs even when one fails, `fold_w` concatenates the
executed rounds' logs, and `fallback_w` keeps only the deciding branch's
log. -/
theorem C7_writer_logs_witness :
    (parallel_w [(⟨Result.Ok 1, [1]⟩ : WriterResult Nat Nat Nat),
        ⟨Result.Error 9, [2]⟩]).log = [1, 2] ∧
    (validate_w [(⟨Result.Ok 1, [1]⟩ : WriterResult Nat Nat Nat),
        ⟨Result.Error 9, [2]⟩]).log = [1, 2] ∧
    (fold_w (fun acc a => (⟨Result.Ok (acc + a), [a]⟩ :
        WriterResult Nat Nat Nat)) 0 [3, 4]).log = [3, 4] ∧
    fallback_w (⟨Result.Error 0, [1]⟩ : WriterResult Nat Nat Nat)
        ⟨Result.Ok 5, [2]⟩ = ⟨Result.Ok 5, [2]⟩ := by
  have h := @C7_writer_logs_amended Nat Nat Nat Nat
  refine ⟨?_, ?_, ?_, ?_⟩
  · exact (h.1 [⟨Result.Ok 1, [1]⟩, ⟨Result.Error 9, [2]⟩]).trans (by decide)
  · exact (h.2.2.1 [⟨Result.Ok 1, [1]⟩, ⟨Result.Error 9, [2]⟩]).trans
      (by decide)
  · exact (h.2.2.2.2.1 (fun acc a => ⟨Result.Ok (acc + a), [a]⟩) 0
      [3, 4]).trans (by decide)
  · exact h.2.2.2.2.2.2.1 (⟨Result.Error 0, [1]⟩ : WriterResult Nat Nat Nat)
      ⟨Result.Ok 5, [2]⟩ 0 rfl

end Comb
